import Mathlib

/-!
Verification development for the SALP repository (src/scripts/salp.py and
src/scripts/mask_color.py).  The detection pipeline, geometry measurements,
color-range picker, ROI editing operations, scale calibration and the
mask color-analysis script are shallowly embedded below; OpenCV primitives
(contour extraction, morphology, color conversion) are abstracted as
parameters of the embedding, while all composition logic written in the
repository itself is translated directly.
-/

namespace Salp

/-- The six HSV slider values (h in 0..179, s and v in 0..255 on the UI). -/
structure HSVBounds where
  hmin : ℤ
  hmax : ℤ
  smin : ℤ
  smax : ℤ
  vmin : ℤ
  vmax : ℤ
deriving DecidableEq, Repr

/-- Abstract OpenCV primitives used by `run_detection_pipeline`
(salp.py lines 571-601).  `Img` is a BGR image, `Mask` a binary mask,
`Contour` an extracted contour. -/
structure CvPrims (Img Mask Contour : Type) where
  convertScaleAbs : ℚ → Img → Img
  cvtColorBGR2HSV : Img → Img
  inRange : Img → HSVBounds → Mask
  findContoursExternal : Mask → List Contour
  zerosLike : Mask → Mask
  drawContoursFilled : Mask → List Contour → Mask
  dilate : Mask → ℕ → Mask
  erode : Mask → ℕ → Mask
  contourArea : Contour → ℚ

/-- The detection parameters read from the sliders: contrast multiplier,
HSV bounds, expansion radius (signed, px), min and max area (px^2). -/
structure DetectionParams where
  contrast : ℚ
  bounds : HSVBounds
  expansion : ℤ
  minArea : ℚ
  maxArea : ℚ

/-- Direct translation of `HumanInTheLoopProcessor.run_detection_pipeline`
(salp.py lines 571-601): contrast adjustment, BGR to HSV conversion,
inclusive per-channel thresholding, external contour extraction, optional
morphological dilation/erosion with a square kernel of side `|expansion|`
followed by contour re-extraction, and the final area filter. -/
def run_detection_pipeline {Img Mask Contour : Type} (P : CvPrims Img Mask Contour)
    (original : Img) (ps : DetectionParams) : List Contour :=
  let processed := P.convertScaleAbs ps.contrast original
  let hsvImage := P.cvtColorBGR2HSV processed
  let mask := P.inRange hsvImage ps.bounds
  let contours := P.findContoursExternal mask
  let contours2 :=
    if ps.expansion ≠ 0 then
      let tempMask := P.drawContoursFilled (P.zerosLike mask) contours
      let processedMask :=
        if ps.expansion > 0 then P.dilate tempMask ps.expansion.natAbs
        else P.erode tempMask ps.expansion.natAbs
      P.findContoursExternal processedMask
    else contours
  contours2.filter fun roi =>
    decide (ps.minArea ≤ P.contourArea roi) && decide (P.contourArea roi ≤ ps.maxArea)

/-- Spec step 1-3 (spec.md section 4.1): contrast adjustment, then conversion
to HSV, then inclusive thresholding to a binary mask. -/
def specThresholdMask {Img Mask Contour : Type} (P : CvPrims Img Mask Contour)
    (img : Img) (ps : DetectionParams) : Mask :=
  P.inRange (P.cvtColorBGR2HSV (P.convertScaleAbs ps.contrast img)) ps.bounds

/-- Spec step 5 (spec.md section 4.1): if the expansion radius `r` is nonzero,
rasterize the contours into a filled mask, dilate (r positive) or erode
(r negative) with a square structuring element of side `|r|`, and re-extract
external contours; if `r = 0`, skip and keep the step-4 contours. -/
def specMorphStage {Img Mask Contour : Type} (P : CvPrims Img Mask Contour)
    (mask : Mask) (cs : List Contour) (r : ℤ) : List Contour :=
  if r = 0 then cs
  else if 0 < r then
    P.findContoursExternal (P.dilate (P.drawContoursFilled (P.zerosLike mask) cs) r.natAbs)
  else
    P.findContoursExternal (P.erode (P.drawContoursFilled (P.zerosLike mask) cs) r.natAbs)

/-- Spec step 6 (spec.md section 4.1): keep only contours whose area lies in
the inclusive interval from `lo` to `hi`. -/
def specAreaFilter {Img Mask Contour : Type} (P : CvPrims Img Mask Contour)
    (lo hi : ℚ) (cs : List Contour) : List Contour :=
  cs.filter fun c => decide (lo ≤ P.contourArea c) && decide (P.contourArea c ≤ hi)

/-- The pipeline as the spec section 4.1 words it: threshold mask, external
contour extraction, the morphology stage, and area filtering applied last,
to the post-morphology contours. -/
def detect_spec {Img Mask Contour : Type} (P : CvPrims Img Mask Contour)
    (img : Img) (ps : DetectionParams) : List Contour :=
  let mask := specThresholdMask P img ps
  let cs := P.findContoursExternal mask
  specAreaFilter P ps.minArea ps.maxArea (specMorphStage P mask cs ps.expansion)

/-- The contour list the area filter is applied to (everything in
`run_detection_pipeline` before the final list comprehension). -/
def pre_filter_contours {Img Mask Contour : Type} (P : CvPrims Img Mask Contour)
    (original : Img) (ps : DetectionParams) : List Contour :=
  let processed := P.convertScaleAbs ps.contrast original
  let hsvImage := P.cvtColorBGR2HSV processed
  let mask := P.inRange hsvImage ps.bounds
  let contours := P.findContoursExternal mask
  if ps.expansion ≠ 0 then
    let tempMask := P.drawContoursFilled (P.zerosLike mask) contours
    let processedMask :=
      if ps.expansion > 0 then P.dilate tempMask ps.expansion.natAbs
      else P.erode tempMask ps.expansion.natAbs
    P.findContoursExternal processedMask
  else contours

theorem run_eq_filter_pre {Img Mask Contour : Type} (P : CvPrims Img Mask Contour)
    (original : Img) (ps : DetectionParams) :
    run_detection_pipeline P original ps =
      (pre_filter_contours P original ps).filter fun roi =>
        decide (ps.minArea ≤ P.contourArea roi) && decide (P.contourArea roi ≤ ps.maxArea) := by
  unfold run_detection_pipeline pre_filter_contours
  by_cases h : ps.expansion = 0 <;> simp [h]

/-- C1: the detection pipeline computes its region list in one fixed order:
contrast adjustment, conversion to HSV, inclusive thresholding, external
contour extraction, then (only when the expansion radius is nonzero)
rasterization, dilation (r positive) or erosion (r negative) with a square
structuring element of side `|r|` followed by contour re-extraction, and
area filtering applied last to the post-morphology contours; when `r = 0`
the morphology step is skipped and the step-4 contours are filtered
directly.  Stated as equality of the source pipeline with the pipeline
assembled from the spec's step functions. -/
theorem c1_pipeline_fixed_order {Img Mask Contour : Type} (P : CvPrims Img Mask Contour)
    (original : Img) (ps : DetectionParams) :
    run_detection_pipeline P original ps = detect_spec P original ps := by
  unfold run_detection_pipeline detect_spec specThresholdMask specMorphStage specAreaFilter
  rcases lt_trichotomy ps.expansion 0 with h | h | h
  · simp [h.ne, not_lt.mpr h.le]
  · simp [h]
  · simp [h.ne', h]

/-- C2: every region output by the detection pipeline has area within the
inclusive interval from `minArea` to `maxArea`, every pre-filter contour
whose area lies within those bounds appears in the output (the filter is
exact), and `minArea = 0` together with `maxArea = 0` yields only zero-area
regions rather than an error. -/
theorem c2_area_filter_exact {Img Mask Contour : Type} (P : CvPrims Img Mask Contour)
    (original : Img) (ps : DetectionParams) (c : Contour) :
    (c ∈ run_detection_pipeline P original ps ↔
      c ∈ pre_filter_contours P original ps ∧
        ps.minArea ≤ P.contourArea c ∧ P.contourArea c ≤ ps.maxArea) ∧
    (ps.minArea = 0 → ps.maxArea = 0 → c ∈ run_detection_pipeline P original ps →
      P.contourArea c = 0) := by
  have key : c ∈ run_detection_pipeline P original ps ↔
      c ∈ pre_filter_contours P original ps ∧
        ps.minArea ≤ P.contourArea c ∧ P.contourArea c ≤ ps.maxArea := by
    rw [run_eq_filter_pre]
    simp [List.mem_filter]
  refine ⟨key, ?_⟩
  intro h0 h1 hc
  rcases key.mp hc with ⟨-, hlo, hhi⟩
  rw [h0] at hlo
  rw [h1] at hhi
  exact le_antisymm hhi hlo

/-- A trivial concrete instantiation of the OpenCV primitives, on which
contours are just their areas; the contour extractor always reports the
three contours of areas 0, 5 and 100. -/
def unitPrims : CvPrims Unit Unit ℚ where
  convertScaleAbs := fun _ _ => ()
  cvtColorBGR2HSV := fun _ => ()
  inRange := fun _ _ => ()
  findContoursExternal := fun _ => [0, 5, 100]
  zerosLike := fun _ => ()
  drawContoursFilled := fun _ _ => ()
  dilate := fun _ _ => ()
  erode := fun _ _ => ()
  contourArea := id

/-- Parameters with both area bounds at 0 (the degenerate filter state). -/
def zeroAreaParams : DetectionParams := ⟨1, ⟨0, 179, 0, 255, 0, 255⟩, 0, 0, 0⟩

theorem c2_area_filter_exact_witness :
    (0 : ℚ) ∈ run_detection_pipeline unitPrims () zeroAreaParams ∧
    unitPrims.contourArea (0 : ℚ) = 0 :=
  have hmem : (0 : ℚ) ∈ run_detection_pipeline unitPrims () zeroAreaParams := by
    simp [run_detection_pipeline, unitPrims, zeroAreaParams]
  ⟨hmem, (c2_area_filter_exact unitPrims () zeroAreaParams 0).2 rfl rfl hmem⟩

/-- The epsilon added to the zeroth moment before the centroid division
(the literal `1e-6` in salp.py lines 613 and 674). -/
def centroidEps : ℚ := 1 / 1000000

/-- Python `int()` conversion: truncation toward zero. -/
def truncQ (q : ℚ) : ℤ := if 0 ≤ q then ⌊q⌋ else ⌈q⌉

/-- The raw per-contour quantities returned by the OpenCV primitives that
`handle_accept` calls (salp.py lines 672-681): `cv2.contourArea`,
`cv2.arcLength`, `cv2.moments`, `cv2.boundingRect`, the convex-hull area,
the number of contour points, and the `cv2.fitEllipse` angle. -/
structure RoiGeom where
  pixelArea : ℚ
  pixelPerimeter : ℚ
  m00 : ℚ
  m10 : ℚ
  m01 : ℚ
  boxW : ℕ
  boxH : ℕ
  hullArea : ℚ
  numPoints : ℕ
  ellipseAngle : ℚ

/-- The measurement record assembled for one ROI in `handle_accept`;
`orientationAngle = none` stands for the `np.nan` sentinel. -/
structure RoiMeasurement where
  centroidX : ℤ
  centroidY : ℤ
  aspectRatio : ℚ
  circularity : ℚ
  solidity : ℚ
  orientationAngle : Option ℚ
  scaledArea : ℚ
  scaledPerimeter : ℚ
  scaledEquivDiameter : ℚ

/-- Translation of the per-ROI measurement computation in
`HumanInTheLoopProcessor.handle_accept` (salp.py lines 672-681).  `piVal`
stands for the float `math.pi` and `sqrtVal` for the float `np.sqrt`, the
two external math primitives the code calls. -/
def computeRoiMeasurement (piVal : ℚ) (sqrtVal : ℚ → ℚ) (scaleFactor : ℚ)
    (g : RoiGeom) : RoiMeasurement :=
  { centroidX := truncQ (g.m10 / (g.m00 + centroidEps))
    centroidY := truncQ (g.m01 / (g.m00 + centroidEps))
    aspectRatio := if g.boxH ≠ 0 then (g.boxW : ℚ) / (g.boxH : ℚ) else 0
    circularity := if g.pixelPerimeter ≠ 0 then
        4 * piVal * g.pixelArea / g.pixelPerimeter ^ 2 else 0
    solidity := if g.hullArea ≠ 0 then g.pixelArea / g.hullArea else 0
    orientationAngle := if 5 ≤ g.numPoints then some g.ellipseAngle else none
    scaledArea := g.pixelArea / scaleFactor ^ 2
    scaledPerimeter := g.pixelPerimeter / scaleFactor
    scaledEquivDiameter := sqrtVal (4 * g.pixelArea / piVal) / scaleFactor }

/-- C3: the measurement computation never takes a division fault: zero
perimeter gives circularity 0, zero convex-hull area gives solidity 0, zero
bounding-box height gives aspect ratio 0, fewer than 5 vertices gives a
not-a-number orientation, and the centroid denominator is the zeroth moment
plus a small epsilon, hence nonzero for any nonnegative moment, so the
centroid is always the defined truncated quotient. -/
theorem c3_measurement_guards (piVal : ℚ) (sqrtVal : ℚ → ℚ) (scaleFactor : ℚ)
    (g : RoiGeom) :
    (g.pixelPerimeter = 0 →
      (computeRoiMeasurement piVal sqrtVal scaleFactor g).circularity = 0) ∧
    (g.hullArea = 0 →
      (computeRoiMeasurement piVal sqrtVal scaleFactor g).solidity = 0) ∧
    (g.boxH = 0 →
      (computeRoiMeasurement piVal sqrtVal scaleFactor g).aspectRatio = 0) ∧
    (g.numPoints < 5 →
      (computeRoiMeasurement piVal sqrtVal scaleFactor g).orientationAngle = none) ∧
    (0 ≤ g.m00 → g.m00 + centroidEps ≠ 0) ∧
    (computeRoiMeasurement piVal sqrtVal scaleFactor g).centroidX =
      truncQ (g.m10 / (g.m00 + centroidEps)) := by
  refine ⟨fun h => ?_, fun h => ?_, fun h => ?_, fun h => ?_, fun h => ?_, rfl⟩
  · simp [computeRoiMeasurement, h]
  · simp [computeRoiMeasurement, h]
  · simp [computeRoiMeasurement, h]
  · simp [computeRoiMeasurement, Nat.not_le.mpr h]
  · have : (0 : ℚ) < g.m00 + centroidEps := by
      have : (0 : ℚ) < centroidEps := by norm_num [centroidEps]
      linarith
    exact this.ne'

/-- A fully degenerate contour geometry: zero area, perimeter, moments,
hull area and bounding box, and only 2 points. -/
def degenerateGeom : RoiGeom := ⟨0, 0, 0, 0, 0, 0, 0, 0, 2, 0⟩

theorem c3_measurement_guards_witness :
    (computeRoiMeasurement 3 id 1 degenerateGeom).circularity = 0 ∧
    (computeRoiMeasurement 3 id 1 degenerateGeom).solidity = 0 ∧
    (computeRoiMeasurement 3 id 1 degenerateGeom).aspectRatio = 0 ∧
    (computeRoiMeasurement 3 id 1 degenerateGeom).orientationAngle = none ∧
    degenerateGeom.m00 + centroidEps ≠ 0 :=
  have h := c3_measurement_guards 3 id 1 degenerateGeom
  ⟨h.1 rfl, h.2.1 rfl, h.2.2.1 rfl, h.2.2.2.1 (by norm_num [degenerateGeom]),
    h.2.2.2.2.1 (by norm_num [degenerateGeom])⟩

/-- The fixed hue tolerance `H_TOL = 5` of `handle_color_pick`. -/
def hTol : ℤ := 5

/-- The fixed saturation/value tolerance `SV_TOL = 25` of `handle_color_pick`. -/
def svTol : ℤ := 25

/-- The image as the color picker sees it: its dimensions and, per pixel,
the HSV triple obtained by `cv2.cvtColor` of the BGR sample at that pixel
(the composition at salp.py lines 844-846, abstracted). -/
structure PickImage where
  height : ℕ
  width : ℕ
  hsvAt : ℕ → ℕ → ℕ × ℕ × ℕ

/-- The state the color-picker methods read and write: the six HSV slider
values, the undo stack of prior slider snapshots (`color_picker_history`,
pushed at the end), and whether the undo button is enabled. -/
structure PickerState where
  bounds : HSVBounds
  history : List HSVBounds
  undoEnabled : Bool
deriving DecidableEq

/-- Tk `Scale.set`: the stored slider value is clamped to the slider's
`from_`..`to` range. -/
def tkSet (lo hi x : ℤ) : ℤ := max lo (min hi x)

/-- numpy uint8 scalar arithmetic: under value-based casting a uint8
sample combined with a small Python int stays uint8, so the result wraps
modulo 256. -/
def u8 (x : ℤ) : ℤ := x % 256

/-- The slider values set on the first pick (salp.py lines 850-853):
`max(0, c - tol)` and `min(top, c + tol)` where `c` is a numpy uint8
sample, so the subtraction and addition wrap modulo 256 before the Python
`max`/`min` run, and the final `Scale.set` clamps to the slider range
(0..179 for hue, 0..255 for saturation and value). -/
def firstPickBounds (h s v : ℤ) : HSVBounds :=
  ⟨tkSet 0 179 (max 0 (u8 (h - hTol))), tkSet 0 179 (min 179 (u8 (h + hTol))),
   tkSet 0 255 (max 0 (u8 (s - svTol))), tkSet 0 255 (min 255 (u8 (s + svTol))),
   tkSet 0 255 (max 0 (u8 (v - svTol))), tkSet 0 255 (min 255 (u8 (v + svTol)))⟩

/-- The slider values set on every subsequent pick (salp.py lines
855-857): per channel the `min`/`max` of the current slider value and the
sample (no wrapping arithmetic is involved here), stored through
`Scale.set`. -/
def expandBounds (b : HSVBounds) (h s v : ℤ) : HSVBounds :=
  ⟨tkSet 0 179 (min b.hmin h), tkSet 0 179 (max b.hmax h),
   tkSet 0 255 (min b.smin s), tkSet 0 255 (max b.smax s),
   tkSet 0 255 (min b.vmin v), tkSet 0 255 (max b.vmax v)⟩

/-- Translation of `HumanInTheLoopProcessor.handle_color_pick`
(salp.py lines 834-859): ignore out-of-bounds clicks; otherwise push the
pre-pick slider state onto the history, enable undo, sample the pixel's
HSV value, and set the new range from it (seed rule when this is the first
entry on the history, expansion rule otherwise). -/
def handle_color_pick (img : PickImage) (x y : ℤ) (st : PickerState) : PickerState :=
  if 0 ≤ y ∧ y < (img.height : ℤ) ∧ 0 ≤ x ∧ x < (img.width : ℤ) then
    let hist := st.history ++ [st.bounds]
    let hsv := img.hsvAt x.toNat y.toNat
    let h : ℤ := hsv.1
    let s : ℤ := hsv.2.1
    let v : ℤ := hsv.2.2
    let newBounds :=
      if hist.length = 1 then firstPickBounds h s v else expandBounds st.bounds h s v
    { bounds := newBounds, history := hist, undoEnabled := true }
  else st

/-- Translation of `HumanInTheLoopProcessor.undo_last_color_pick`
(salp.py lines 861-869): if the history is nonempty, pop its last snapshot
into the sliders; afterwards, if the history is empty, disable the undo
button. -/
def undo_last_color_pick (st : PickerState) : PickerState :=
  let st1 : PickerState :=
    match st.history.getLast? with
    | some b => { bounds := b, history := st.history.dropLast, undoEnabled := st.undoEnabled }
    | none => st
  if st1.history.isEmpty then { st1 with undoEnabled := false } else st1

/-- A concrete 1-by-1 image whose pixel samples to HSV (2, 10, 250), a
sample near the channel boundaries. -/
def boundaryPickImage : PickImage := ⟨1, 1, fun _ _ => (2, 10, 250)⟩

/-- C4 counterexample: the first-pick tolerance arithmetic runs on numpy
uint8 samples and wraps modulo 256 before the clamps, so a first pick
sampling HSV (2, 10, 250) sets h_min to 179 where the claimed clamped
formula gives max(0, 2-5) = 0, s_min to 241 where the claim gives
max(0, 10-25) = 0, and v_max to 19 where the claim gives
min(255, 250+25) = 255. -/
theorem c4_counterexample_uint8_wrap :
    (handle_color_pick boundaryPickImage 0 0
        ⟨⟨2, 91, 43, 164, 48, 196⟩, [], false⟩).bounds.hmin = 179 ∧
    (179 : ℤ) ≠ max 0 (2 - 5) ∧
    (handle_color_pick boundaryPickImage 0 0
        ⟨⟨2, 91, 43, 164, 48, 196⟩, [], false⟩).bounds.smin = 241 ∧
    (241 : ℤ) ≠ max 0 (10 - 25) ∧
    (handle_color_pick boundaryPickImage 0 0
        ⟨⟨2, 91, 43, 164, 48, 196⟩, [], false⟩).bounds.vmax = 19 ∧
    (19 : ℤ) ≠ min 255 (250 + 25) := by
  refine ⟨by decide, by decide, by decide, by decide, by decide, by decide⟩

/-- C4 (amended): for every in-bounds pick of a pixel sampling HSV
(h, s, v) with h at most 179 and s, v at most 255: on the first pick
(empty history) the tolerance arithmetic is uint8 and wraps modulo 256
before the clamps, so each channel minimum is sample - tol when the
sample is at least tol but the wrapped value otherwise (clamped to the
slider top: 179 for h_min, while s_min/v_min become sample + 231), and
each channel maximum is min(top, sample + tol) when no wrap occurs
(always for hue) but sample - 231 when s or v exceeds 230; on every
subsequent pick, each channel minimum becomes min(old min, sample) and
each maximum max(old max, sample), so the range never shrinks and covers
the sample. -/
theorem c4_color_pick_range_update (img : PickImage) (x y : ℤ) (st : PickerState)
    (h s v : ℕ)
    (hin : 0 ≤ y ∧ y < (img.height : ℤ) ∧ 0 ≤ x ∧ x < (img.width : ℤ))
    (hsmp : img.hsvAt x.toNat y.toNat = (h, s, v))
    (hh : h ≤ 179) (hs : s ≤ 255) (hv : v ≤ 255) :
    (st.history = [] →
      (5 ≤ h → (handle_color_pick img x y st).bounds.hmin = (h : ℤ) - 5) ∧
      (h < 5 → (handle_color_pick img x y st).bounds.hmin = 179) ∧
      (handle_color_pick img x y st).bounds.hmax = min 179 ((h : ℤ) + 5) ∧
      (25 ≤ s → (handle_color_pick img x y st).bounds.smin = (s : ℤ) - 25) ∧
      (s < 25 → (handle_color_pick img x y st).bounds.smin = (s : ℤ) + 231) ∧
      (s ≤ 230 → (handle_color_pick img x y st).bounds.smax = (s : ℤ) + 25) ∧
      (230 < s → (handle_color_pick img x y st).bounds.smax = (s : ℤ) - 231) ∧
      (25 ≤ v → (handle_color_pick img x y st).bounds.vmin = (v : ℤ) - 25) ∧
      (v < 25 → (handle_color_pick img x y st).bounds.vmin = (v : ℤ) + 231) ∧
      (v ≤ 230 → (handle_color_pick img x y st).bounds.vmax = (v : ℤ) + 25) ∧
      (230 < v → (handle_color_pick img x y st).bounds.vmax = (v : ℤ) - 231)) ∧
    (st.history ≠ [] →
      0 ≤ st.bounds.hmin → st.bounds.hmin ≤ 179 →
      0 ≤ st.bounds.hmax → st.bounds.hmax ≤ 179 →
      0 ≤ st.bounds.smin → st.bounds.smin ≤ 255 →
      0 ≤ st.bounds.smax → st.bounds.smax ≤ 255 →
      0 ≤ st.bounds.vmin → st.bounds.vmin ≤ 255 →
      0 ≤ st.bounds.vmax → st.bounds.vmax ≤ 255 →
      (handle_color_pick img x y st).bounds.hmin = min st.bounds.hmin (h : ℤ) ∧
      (handle_color_pick img x y st).bounds.hmax = max st.bounds.hmax (h : ℤ) ∧
      (handle_color_pick img x y st).bounds.smin = min st.bounds.smin (s : ℤ) ∧
      (handle_color_pick img x y st).bounds.smax = max st.bounds.smax (s : ℤ) ∧
      (handle_color_pick img x y st).bounds.vmin = min st.bounds.vmin (v : ℤ) ∧
      (handle_color_pick img x y st).bounds.vmax = max st.bounds.vmax (v : ℤ) ∧
      (handle_color_pick img x y st).bounds.hmin ≤ st.bounds.hmin ∧
      st.bounds.hmax ≤ (handle_color_pick img x y st).bounds.hmax ∧
      (handle_color_pick img x y st).bounds.smin ≤ st.bounds.smin ∧
      st.bounds.smax ≤ (handle_color_pick img x y st).bounds.smax ∧
      (handle_color_pick img x y st).bounds.vmin ≤ st.bounds.vmin ∧
      st.bounds.vmax ≤ (handle_color_pick img x y st).bounds.vmax ∧
      (handle_color_pick img x y st).bounds.hmin ≤ (h : ℤ) ∧
      ((h : ℤ)) ≤ (handle_color_pick img x y st).bounds.hmax) := by
  constructor
  · intro h0
    have hb : (handle_color_pick img x y st).bounds = firstPickBounds h s v := by
      simp [handle_color_pick, hin, h0, hsmp]
    rw [hb]
    simp only [firstPickBounds, tkSet, u8, hTol, svTol]
    omega
  · intro h0 b1 b2 b3 b4 b5 b6 b7 b8 b9 b10 b11 b12
    have hlen : (st.history ++ [st.bounds]).length ≠ 1 := by
      have : st.history.length ≠ 0 := fun hc => h0 (List.length_eq_zero.mp hc)
      simp only [List.length_append, List.length_singleton]
      omega
    have hb : (handle_color_pick img x y st).bounds = expandBounds st.bounds h s v := by
      simp [handle_color_pick, hin, hlen, hsmp, h0]
    rw [hb]
    simp only [expandBounds, tkSet]
    omega

/-- A concrete 2-by-2 image whose every pixel samples to HSV (90, 30, 200). -/
def tinyPickImage : PickImage := ⟨2, 2, fun _ _ => (90, 30, 200)⟩

/-- A picker state holding one prior snapshot, as after one pick. -/
def onePickState : PickerState :=
  ⟨⟨85, 95, 5, 55, 175, 225⟩, [⟨2, 91, 43, 164, 48, 196⟩], true⟩

theorem c4_color_pick_range_update_witness :
    (handle_color_pick tinyPickImage 0 0
        ⟨⟨2, 91, 43, 164, 48, 196⟩, [], false⟩).bounds.hmin = 85 ∧
    (handle_color_pick tinyPickImage 1 1 onePickState).bounds.smax = 55 :=
  have h1 := c4_color_pick_range_update tinyPickImage 0 0
    ⟨⟨2, 91, 43, 164, 48, 196⟩, [], false⟩ 90 30 200 (by decide) rfl
    (by decide) (by decide) (by decide)
  have h2 := c4_color_pick_range_update tinyPickImage 1 1 onePickState 90 30 200
    (by decide) rfl (by decide) (by decide) (by decide)
  have hB := h2.2 (by decide) (by decide) (by decide) (by decide) (by decide)
    (by decide) (by decide) (by decide) (by decide) (by decide) (by decide)
    (by decide) (by decide)
  ⟨by rw [(h1.1 rfl).1 (by decide)]; decide, by rw [hB.2.2.2.1]; decide⟩

/-- C5: every in-bounds pick pushes the pre-pick six-value range onto the
undo stack, a pick followed by undo restores exactly the range and the
stack that held before the pick, undo always pops the most recent snapshot,
and undo is disabled once the stack is empty. -/
theorem c5_pick_undo_roundtrip (img : PickImage) (x y : ℤ) (st : PickerState)
    (hin : 0 ≤ y ∧ y < (img.height : ℤ) ∧ 0 ≤ x ∧ x < (img.width : ℤ)) :
    (handle_color_pick img x y st).history = st.history ++ [st.bounds] ∧
    (undo_last_color_pick (handle_color_pick img x y st)).bounds = st.bounds ∧
    (undo_last_color_pick (handle_color_pick img x y st)).history = st.history ∧
    (∀ s : PickerState, (undo_last_color_pick s).history = s.history.dropLast) ∧
    (∀ s : PickerState, (undo_last_color_pick s).history = [] →
      (undo_last_color_pick s).undoEnabled = false) := by
  have hpick : (handle_color_pick img x y st).history = st.history ++ [st.bounds] := by
    simp [handle_color_pick, hin]
  have hlast : (handle_color_pick img x y st).history.getLast? = some st.bounds := by
    rw [hpick]; exact List.getLast?_concat _
  have hdrop : (handle_color_pick img x y st).history.dropLast = st.history := by
    rw [hpick]; exact List.dropLast_concat
  refine ⟨hpick, ?_, ?_, ?_, ?_⟩
  · unfold undo_last_color_pick
    rw [hlast]
    by_cases h : st.history.isEmpty <;> simp [hdrop, h]
  · unfold undo_last_color_pick
    rw [hlast]
    by_cases h : st.history.isEmpty <;> simp [hdrop, h]
  · intro s
    unfold undo_last_color_pick
    match hl : s.history.getLast? with
    | some b =>
      by_cases h : s.history.dropLast.isEmpty <;> simp [hl, h]
    | none =>
      have : s.history = [] := List.getLast?_eq_none_iff.mp hl
      by_cases h : s.history.isEmpty <;> simp [hl, h, this]
  · intro s hs
    unfold undo_last_color_pick at hs ⊢
    match hl : s.history.getLast? with
    | some b =>
      simp only [hl] at hs ⊢
      by_cases h : s.history.dropLast.isEmpty
      · simp [h]
      · simp [h] at hs ⊢
        exact absurd (List.isEmpty_iff.mpr hs) h
    | none =>
      have he : s.history = [] := List.getLast?_eq_none_iff.mp hl
      simp [hl, he]

theorem c5_pick_undo_roundtrip_witness :
    (undo_last_color_pick (handle_color_pick tinyPickImage 0 1 onePickState)).bounds =
        onePickState.bounds ∧
    (undo_last_color_pick (handle_color_pick tinyPickImage 0 1 onePickState)).history =
        onePickState.history :=
  have h := c5_pick_undo_roundtrip tinyPickImage 0 1 onePickState (by decide)
  ⟨h.2.1, h.2.2.1⟩

/-- Python `str.strip()`: remove whitespace from both ends. -/
def pyStrip (s : String) : String :=
  ⟨((s.data.dropWhile Char.isWhitespace).reverse.dropWhile Char.isWhitespace).reverse⟩

/-- The scale held by the application: pixels per physical unit, the unit
name, and the calibration window's confirmation flag. -/
structure ScaleState where
  scaleFactor : ℚ
  scaleUnit : String
  isConfirmed : Bool
deriving DecidableEq

/-- The scale before any calibration: 1.0 pixel per "px", unconfirmed. -/
def defaultScale : ScaleState := ⟨1, "px", false⟩

/-- Squared Euclidean distance between two integer points; `math.dist` is
its square root. -/
def distSq (p q : ℤ × ℤ) : ℤ := (p.1 - q.1) ^ 2 + (p.2 - q.2) ^ 2

theorem distSq_pos {p q : ℤ × ℤ} (h : p ≠ q) : 0 < distSq p q := by
  unfold distSq
  rcases eq_or_ne p.1 q.1 with h1 | h1
  · rcases eq_or_ne p.2 q.2 with h2 | h2
    · exact absurd (Prod.ext h1 h2) h
    · have h2' : p.2 - q.2 ≠ 0 := sub_ne_zero.mpr h2
      nlinarith [sq_nonneg (p.1 - q.1), sq_pos_of_ne_zero h2']
  · have h1' : p.1 - q.1 ≠ 0 := sub_ne_zero.mpr h1
    nlinarith [sq_nonneg (p.2 - q.2), sq_pos_of_ne_zero h1']

/-- Translation of `ScaleCalibrationWindow.confirm_scale` (salp.py lines
209-219).  `p1`, `p2` are the picked points (`none` when unset), `distPx`
the pixel length `math.dist(p1, p2)` computed by the window, `lengthReal`
the dialog answer (`none` when cancelled), `unit` the unit dialog answer.
When any check fails the window state `st` is left untouched (the prior
scale therefore remains in effect), mirroring the early returns. -/
def confirm_scale (p1 p2 : Option (ℤ × ℤ)) (distPx : ℚ) (lengthReal : Option ℚ)
    (unit : Option String) (st : ScaleState) : ScaleState :=
  match p1, p2 with
  | some _, some _ =>
    match lengthReal with
    | some len =>
      if 0 < len then
        match unit with
        | some u =>
          if u ≠ "" ∧ pyStrip u ≠ "" then ⟨distPx / len, pyStrip u, true⟩ else st
        | none => st
      else st
    | none => st
  | _, _ => st

theorem confirm_scale_success (st : ScaleState) (p1 p2 : ℤ × ℤ) (distPx len : ℚ)
    (u : String) (hlen : 0 < len) (hu1 : u ≠ "") (hu2 : pyStrip u ≠ "") :
    confirm_scale (some p1) (some p2) distPx (some len) (some u) st =
      ⟨distPx / len, pyStrip u, true⟩ := by
  simp [confirm_scale, hlen, hu1, hu2]

/-- C6 counterexample: with both points set but coincident (so the drawn
line has pixel length 0), a real length of 5 and unit "cm", the
calibration is accepted with `scale_factor = 0`, and the claimed round
trip `distance / scale_factor = real_length` fails (in Python the division
by the zero scale factor would raise). -/
theorem c6_counterexample_coincident_points :
    (confirm_scale (some (0, 0)) (some (0, 0)) 0 (some 5) (some "cm") defaultScale).isConfirmed
        = true ∧
    (0 : ℚ) ^ 2 = ((distSq (0, 0) (0, 0) : ℤ) : ℚ) ∧
    (0 : ℚ) /
        (confirm_scale (some (0, 0)) (some (0, 0)) 0 (some 5) (some "cm")
          defaultScale).scaleFactor ≠ 5 := by
  have hval := confirm_scale_success defaultScale (0, 0) (0, 0) 0 5 "cm"
    (by norm_num) (by decide) (by decide)
  refine ⟨by rw [hval], by norm_num [distSq], ?_⟩
  rw [hval]
  show (0 : ℚ) / (0 / 5) ≠ 5
  norm_num

/-- C6 (amended): calibration succeeds exactly when both points are set,
the real length is positive and the unit is nonempty after stripping, in
which case the scale factor is the pixel distance divided by the real
length; the round trip `distance / scale_factor = real_length` holds
provided additionally the two points are distinct (nonzero pixel
distance); on any violated precondition the prior scale state is kept. -/
theorem c6_scale_calibration (st : ScaleState) :
    (∀ (p1 p2 : ℤ × ℤ) (distPx len : ℚ) (u : String), 0 < len → u ≠ "" → pyStrip u ≠ "" →
      confirm_scale (some p1) (some p2) distPx (some len) (some u) st =
        ⟨distPx / len, pyStrip u, true⟩) ∧
    (∀ (p1 p2 : ℤ × ℤ) (distPx len : ℚ) (u : String), 0 < len → u ≠ "" → pyStrip u ≠ "" →
      distPx ^ 2 = ((distSq p1 p2 : ℤ) : ℚ) → p1 ≠ p2 →
      distPx /
          (confirm_scale (some p1) (some p2) distPx (some len) (some u) st).scaleFactor =
        len) ∧
    (∀ p2 distPx lengthReal unit, confirm_scale none p2 distPx lengthReal unit st = st) ∧
    (∀ p1 distPx lengthReal unit, confirm_scale p1 none distPx lengthReal unit st = st) ∧
    (∀ p1 p2 distPx unit, confirm_scale (some p1) (some p2) distPx none unit st = st) ∧
    (∀ p1 p2 distPx len unit, len ≤ 0 →
      confirm_scale (some p1) (some p2) distPx (some len) unit st = st) ∧
    (∀ p1 p2 distPx len, 0 < len →
      confirm_scale (some p1) (some p2) distPx (some len) none st = st) ∧
    (∀ p1 p2 distPx len u, pyStrip u = "" →
      confirm_scale (some p1) (some p2) distPx (some len) (some u) st = st) := by
  refine ⟨confirm_scale_success st, ?_, ?_, ?_, ?_, ?_, ?_, ?_⟩
  · intro p1 p2 distPx len u hlen hu1 hu2 hdsq hne
    rw [confirm_scale_success st p1 p2 distPx len u hlen hu1 hu2]
    have hpos : (0 : ℚ) < ((distSq p1 p2 : ℤ) : ℚ) := by
      exact_mod_cast distSq_pos hne
    have hd : distPx ≠ 0 := by
      intro h0
      rw [h0] at hdsq
      rw [← hdsq] at hpos
      norm_num at hpos
    field_simp
  · intro p2 distPx lengthReal unit
    cases p2 <;> rfl
  · intro p1 distPx lengthReal unit
    cases p1 <;> rfl
  · intro p1 p2 distPx unit
    rfl
  · intro p1 p2 distPx len unit hlen
    cases unit <;> simp [confirm_scale, not_lt.mpr hlen]
  · intro p1 p2 distPx len hlen
    simp [confirm_scale, hlen]
  · intro p1 p2 distPx len u hstrip
    by_cases hlen : 0 < len <;> simp [confirm_scale, hlen, hstrip]

theorem c6_scale_calibration_witness :
    confirm_scale (some (0, 0)) (some (3, 4)) 5 (some 2) (some " cm ") defaultScale =
        ⟨5 / 2, "cm", true⟩ ∧
    (5 : ℚ) /
        (confirm_scale (some (0, 0)) (some (3, 4)) 5 (some 2) (some " cm ")
          defaultScale).scaleFactor = 2 ∧
    confirm_scale (some (0, 0)) (some (3, 4)) 5 (some 2) (some "  ") defaultScale =
        defaultScale :=
  have h := c6_scale_calibration defaultScale
  ⟨by
    rw [h.1 (0, 0) (3, 4) 5 2 " cm " (by norm_num) (by decide) (by decide)]
    have hstrip : pyStrip " cm " = "cm" := by decide
    rw [hstrip],
    h.2.1 (0, 0) (3, 4) 5 2 " cm " (by norm_num) (by decide) (by decide)
      (by norm_num [distSq]) (by decide),
    h.2.2.2.2.2.2.2 (0, 0) (3, 4) 5 2 "  " (by decide)⟩

/-- A manually drawn or detected region: the list of its contour points
(the `np.array(...).reshape((-1, 1, 2))` built in `finalize_roi`). -/
abbrev Region : Type := List (ℤ × ℤ)

/-- Translation of `HumanInTheLoopProcessor.finalize_roi` (salp.py lines
805-812): with at least 3 drawn points the new contour is appended to
`final_rois` and no warning is shown; with fewer, a warning is shown and
the list is unchanged.  The boolean is true when the warning fired. -/
def finalize_roi (newRoiPoints : List (ℤ × ℤ)) (finalRois : List Region) :
    List Region × Bool :=
  if 3 ≤ newRoiPoints.length then (finalRois ++ [newRoiPoints], false)
  else (finalRois, true)

/-- C7: finalizing a manual ROI with at least 3 points appends exactly one
new region, built from the drawn points, to the end of the list, so its
1-based display ID equals the new list length; with fewer than 3 points
the finalize is rejected with a warning and no region is committed; in
both cases every previously present region is unchanged at its index. -/
theorem c7_finalize_roi (pts : List (ℤ × ℤ)) (rois : List Region) :
    (3 ≤ pts.length →
      (finalize_roi pts rois).1 = rois ++ [pts] ∧
      (finalize_roi pts rois).1.length = rois.length + 1 ∧
      (finalize_roi pts rois).1[rois.length]? = some pts ∧
      (finalize_roi pts rois).2 = false) ∧
    (pts.length < 3 → finalize_roi pts rois = (rois, true)) ∧
    (∀ i, i < rois.length → (finalize_roi pts rois).1[i]? = rois[i]?) := by
  refine ⟨fun h3 => ?_, fun hlt => ?_, fun i hi => ?_⟩
  · refine ⟨by simp [finalize_roi, h3], by simp [finalize_roi, h3], ?_, by simp [finalize_roi, h3]⟩
    simp [finalize_roi, h3, List.getElem?_append_right]
  · simp [finalize_roi, Nat.not_le.mpr hlt]
  · by_cases h3 : 3 ≤ pts.length
    · simp [finalize_roi, h3, List.getElem?_append, hi]
    · simp [finalize_roi, h3]

theorem c7_finalize_roi_witness :
    (finalize_roi [(0, 0), (4, 0), (0, 3)] [[(9, 9), (10, 9), (9, 10)]]).1 =
        [[(9, 9), (10, 9), (9, 10)], [(0, 0), (4, 0), (0, 3)]] ∧
    finalize_roi [(1, 1), (2, 2)] [[(9, 9), (10, 9), (9, 10)]] =
        ([[(9, 9), (10, 9), (9, 10)]], true) :=
  have h1 := c7_finalize_roi [(0, 0), (4, 0), (0, 3)] [[(9, 9), (10, 9), (9, 10)]]
  have h2 := c7_finalize_roi [(1, 1), (2, 2)] [[(9, 9), (10, 9), (9, 10)]]
  ⟨(h1.1 (by decide)).1, h2.2.1 (by decide)⟩

/-- The per-region manual annotation captured by the side-annotation
window: the two scaled axis lengths and the two texture categories. -/
structure SideData where
  longAxisLength : ℚ
  shortAxisLength : ℚ
  longAxisTexture : String
  shortAxisTexture : String

/-- Translation of `HumanInTheLoopProcessor.delete_selected_roi` (salp.py
lines 764-769).  The manual-annotation dictionary is modeled as a map from
display IDs to optional annotations.  With a selection, the region at the
selected index is popped, the annotation keyed to display ID index+1 (if
any) is deleted, and the selection is cleared; with no selection
(`selected = -1`) nothing changes. -/
def delete_selected_roi (selected : ℤ) (finalRois : List Region)
    (manualMap : ℕ → Option SideData) :
    ℤ × List Region × (ℕ → Option SideData) :=
  if selected ≠ -1 then
    let i := selected.toNat
    (-1, finalRois.eraseIdx i, fun k => if k = i + 1 then none else manualMap k)
  else (selected, finalRois, manualMap)

/-- C8: with a selected index in bounds, `delete_selected_roi` removes
exactly the region at that index (the regions before it keep their
positions and the ones after shift down by one), deletes the annotation
keyed to display ID index+1, leaves every annotation under any other key
unchanged (no re-keying), and clears the selection; with no selection
(index -1) it is a no-op on the region list and the annotation map and
raises no error. -/
theorem c8_delete_selected_roi (selected : ℤ) (rois : List Region)
    (manualMap : ℕ → Option SideData) :
    (selected = -1 → delete_selected_roi selected rois manualMap =
      (selected, rois, manualMap)) ∧
    (0 ≤ selected → selected.toNat < rois.length →
      (delete_selected_roi selected rois manualMap).2.1 =
          rois.take selected.toNat ++ rois.drop (selected.toNat + 1) ∧
      (delete_selected_roi selected rois manualMap).2.1.length + 1 = rois.length ∧
      (delete_selected_roi selected rois manualMap).2.2 (selected.toNat + 1) = none ∧
      (∀ k, k ≠ selected.toNat + 1 →
        (delete_selected_roi selected rois manualMap).2.2 k = manualMap k) ∧
      (delete_selected_roi selected rois manualMap).1 = -1) := by
  constructor
  · intro h
    simp [delete_selected_roi, h]
  · intro h0 hlt
    have hne : selected ≠ -1 := by omega
    refine ⟨?_, ?_, ?_, ?_, ?_⟩
    · simp [delete_selected_roi, hne, List.eraseIdx_eq_take_drop_succ]
    · simp only [delete_selected_roi, hne, if_pos, ne_eq, not_false_iff]
      simp [List.length_eraseIdx, hlt]
      omega
    · simp [delete_selected_roi, hne]
    · intro k hk
      simp [delete_selected_roi, hne, hk]
    · simp [delete_selected_roi, hne]

/-- A two-entry annotation map holding data under display IDs 1 and 2. -/
def twoAnnotMap : ℕ → Option SideData :=
  fun k => if k = 1 then some ⟨10, 4, "Smooth", "Rough"⟩
    else if k = 2 then some ⟨7, 3, "Rough", "Smooth"⟩ else none

theorem c8_delete_selected_roi_witness :
    (delete_selected_roi 0 [[(0, 0), (1, 0), (0, 1)], [(5, 5), (6, 5), (5, 6)]]
        twoAnnotMap).2.1 = [[(5, 5), (6, 5), (5, 6)]] ∧
    (delete_selected_roi 0 [[(0, 0), (1, 0), (0, 1)], [(5, 5), (6, 5), (5, 6)]]
        twoAnnotMap).2.2 1 = none ∧
    (delete_selected_roi 0 [[(0, 0), (1, 0), (0, 1)], [(5, 5), (6, 5), (5, 6)]]
        twoAnnotMap).2.2 2 = twoAnnotMap 2 ∧
    (delete_selected_roi (-1) [[(0, 0), (1, 0), (0, 1)]] twoAnnotMap).2.1 =
        [[(0, 0), (1, 0), (0, 1)]] :=
  have h := c8_delete_selected_roi 0 [[(0, 0), (1, 0), (0, 1)], [(5, 5), (6, 5), (5, 6)]]
    twoAnnotMap
  have h2 := c8_delete_selected_roi (-1) [[(0, 0), (1, 0), (0, 1)]] twoAnnotMap
  have hb := h.2 (by norm_num) (by norm_num)
  ⟨by rw [hb.1]; rfl, hb.2.2.1, hb.2.2.2.1 2 (by norm_num),
    by rw [h2.1 rfl]⟩

/-- The default slider values set by `reset_hsv_defaults` (salp.py lines
565-568): contrast 1.0 and the six HSV bounds 2, 91, 43, 164, 48, 196. -/
def hsvDefaultBounds : HSVBounds := ⟨2, 91, 43, 164, 48, 196⟩

/-- The application state touched when advancing to a new image.  The
first block is per-image working state, the second the detection sliders,
the third the cross-image persistent state (cumulative results table,
scale, session identity, image counter). -/
structure AppState where
  manualMap : ℕ → Option SideData
  selectedRoiIndex : ℤ
  drawingMode : Bool
  newRoiPoints : List (ℤ × ℤ)
  colorPickerActive : Bool
  previewZoomFactor : ℚ
  contrastValue : ℚ
  bounds : HSVBounds
  roiExpansion : ℤ
  minAreaSlider : ℕ
  maxAreaSlider : ℕ
  resultsRows : List String
  scaleFactor : ℚ
  scaleUnit : String
  sessionId : String

/-- Translation of the state updates of
`HumanInTheLoopProcessor.process_next_image` (salp.py lines 945-954) for a
readable image: clear the manual annotations, cancel drawing (mode off,
points dropped), exit color-picker mode, deselect, reset the preview zoom,
and call `reset_hsv_defaults`, which sets contrast to 1.0 and the six HSV
sliders to their fixed defaults — and touches no other slider. -/
def process_next_image (st : AppState) : AppState :=
  { st with
    manualMap := fun _ => none
    drawingMode := false
    newRoiPoints := []
    colorPickerActive := false
    selectedRoiIndex := -1
    previewZoomFactor := 1
    contrastValue := 1
    bounds := hsvDefaultBounds }

/-- A base application state used for the C9 counterexample, with
expansion radius 10 and area sliders 500 and 60000 left over from the
previous image. -/
def leftoverStateA : AppState :=
  ⟨twoAnnotMap, 0, true, [(1, 1)], false, 2, 3, ⟨0, 179, 0, 255, 0, 255⟩,
    10, 500, 60000, ["row1"], 1, "px", "20260101_000000"⟩

/-- Like `leftoverStateA` but with expansion radius 7 and area sliders 4
and 9000. -/
def leftoverStateB : AppState :=
  ⟨twoAnnotMap, 0, true, [(1, 1)], false, 2, 3, ⟨0, 179, 0, 255, 0, 255⟩,
    7, 4, 9000, ["row1"], 1, "px", "20260101_000000"⟩

/-- C9 counterexample: the expansion-radius, min-area and max-area sliders
are not reset when advancing to a new image — after `process_next_image`
they still hold whatever the previous image left in them (10/500/60000
versus 7/4/9000 for two states that should both have been forced to one
fixed default). -/
theorem c9_counterexample_sliders_persist :
    (process_next_image leftoverStateA).roiExpansion = 10 ∧
    (process_next_image leftoverStateB).roiExpansion = 7 ∧
    (process_next_image leftoverStateA).minAreaSlider = 500 ∧
    (process_next_image leftoverStateB).minAreaSlider = 4 ∧
    (process_next_image leftoverStateA).maxAreaSlider = 60000 ∧
    (process_next_image leftoverStateB).maxAreaSlider = 9000 ∧
    (10 : ℤ) ≠ 7 := by
  refine ⟨rfl, rfl, rfl, rfl, rfl, rfl, by decide⟩

/-- C9 (amended): on advancing to each new image the per-image state is
reset — the manual-annotation map is cleared, the selection is cleared,
drawing and color-picking modes are exited, the preview zoom returns to 1
— and the contrast slider and the six HSV sliders are forcibly reset to
their fixed defaults (1.0 and 2/91/43/164/48/196); the expansion-radius,
min-area and max-area sliders are NOT reset and keep their last values;
the cumulative measurement table, the Scale and the session identity
persist unchanged. -/
theorem c9_per_image_reset (st : AppState) :
    (process_next_image st).manualMap = (fun _ => none) ∧
    (process_next_image st).selectedRoiIndex = -1 ∧
    (process_next_image st).drawingMode = false ∧
    (process_next_image st).newRoiPoints = [] ∧
    (process_next_image st).colorPickerActive = false ∧
    (process_next_image st).previewZoomFactor = 1 ∧
    (process_next_image st).contrastValue = 1 ∧
    (process_next_image st).bounds = hsvDefaultBounds ∧
    (process_next_image st).roiExpansion = st.roiExpansion ∧
    (process_next_image st).minAreaSlider = st.minAreaSlider ∧
    (process_next_image st).maxAreaSlider = st.maxAreaSlider ∧
    (process_next_image st).resultsRows = st.resultsRows ∧
    (process_next_image st).scaleFactor = st.scaleFactor ∧
    (process_next_image st).scaleUnit = st.scaleUnit ∧
    (process_next_image st).sessionId = st.sessionId :=
  ⟨rfl, rfl, rfl, rfl, rfl, rfl, rfl, rfl, rfl, rfl, rfl, rfl, rfl, rfl, rfl⟩

/-- A BGR pixel of the original image, as floats once averaged. -/
structure BGRPixel where
  b : ℚ
  g : ℚ
  r : ℚ
deriving DecidableEq

/-- Translation of `calculate_brightness` (mask_color.py lines 24-28): the
ITU-R BT.601 luminance of an RGB color. -/
def calculate_brightness (r g b : ℚ) : ℚ :=
  299 / 1000 * r + 587 / 1000 * g + 114 / 1000 * b

/-- Translation of `get_simple_color_category` (mask_color.py lines
30-43). -/
def get_simple_color_category (r g b : ℚ) : String :=
  if max r (max g b) < 50 then "Dark"
  else if 200 < min r (min g b) then "Light"
  else if g < r ∧ b < r then "Reddish"
  else if r < g ∧ b < g then "Greenish"
  else if r < b ∧ g < b then "Bluish"
  else "Mixed"

/-- The color fields appended to `results` for one mask
(mask_color.py lines 161-170, before the 2-decimal rounding). -/
structure ColorRecord where
  avgB : ℚ
  avgG : ℚ
  avgR : ℚ
  brightness : ℚ
  colorCategory : String
deriving DecidableEq

/-- The pixel selection `img[mask > 0]` (mask_color.py lines 95-96): the
image as a list of BGR pixels paired with their grayscale mask value, kept
when the mask value is nonzero. -/
def maskedPixels (img : List (BGRPixel × ℕ)) : List BGRPixel :=
  (img.filter fun pm => decide (0 < pm.2)).map Prod.fst

/-- Translation of the color analysis of one mask (mask_color.py lines
150-159): with no selected pixel the record is built from average color
(0,0,0), brightness 0 and category "Dark"; otherwise from the per-channel
mean of the selected pixels, its BT.601 brightness and its category. -/
def analyze_mask_colors (img : List (BGRPixel × ℕ)) : ColorRecord :=
  let px := maskedPixels img
  if px.isEmpty then ⟨0, 0, 0, 0, "Dark"⟩
  else
    let n : ℚ := px.length
    let avgB := (px.map BGRPixel.b).sum / n
    let avgG := (px.map BGRPixel.g).sum / n
    let avgR := (px.map BGRPixel.r).sum / n
    ⟨avgB, avgG, avgR, calculate_brightness avgR avgG avgB,
      get_simple_color_category avgR avgG avgB⟩

/-- C10: when the mask selects zero pixels a result record is still
produced, with average color (0,0,0), brightness 0 and category "Dark";
when at least one pixel is selected, the recorded brightness is
0.299*r + 0.587*g + 0.114*b of the per-channel mean of the selected
pixels. -/
theorem c10_mask_color_analysis (img : List (BGRPixel × ℕ)) :
    (maskedPixels img = [] →
      analyze_mask_colors img = ⟨0, 0, 0, 0, "Dark"⟩) ∧
    (maskedPixels img ≠ [] →
      (analyze_mask_colors img).brightness =
        299 / 1000 * (((maskedPixels img).map BGRPixel.r).sum / (maskedPixels img).length) +
        587 / 1000 * (((maskedPixels img).map BGRPixel.g).sum / (maskedPixels img).length) +
        114 / 1000 * (((maskedPixels img).map BGRPixel.b).sum / (maskedPixels img).length)) := by
  constructor
  · intro h
    simp [analyze_mask_colors, h]
  · intro h
    have hne : ¬(maskedPixels img).isEmpty := by
      simpa [List.isEmpty_iff] using h
    simp [analyze_mask_colors, hne, calculate_brightness]

/-- A three-pixel image: two selected pixels (mask values 255 and 7) of
BGR colors (10, 20, 30) and (30, 40, 50), and one unselected pixel. -/
def tinyMaskImage : List (BGRPixel × ℕ) :=
  [(⟨10, 20, 30⟩, 255), (⟨200, 200, 200⟩, 0), (⟨30, 40, 50⟩, 7)]

theorem c10_mask_color_analysis_witness :
    analyze_mask_colors [(⟨9, 9, 9⟩, 0)] = ⟨0, 0, 0, 0, "Dark"⟩ ∧
    (analyze_mask_colors tinyMaskImage).brightness =
      299 / 1000 * 40 + 587 / 1000 * 30 + 114 / 1000 * 20 :=
  have h1 := (c10_mask_color_analysis [(⟨9, 9, 9⟩, 0)]).1 (by decide)
  have h2 := (c10_mask_color_analysis tinyMaskImage).2 (by decide)
  ⟨h1, by rw [h2]; norm_num [tinyMaskImage, maskedPixels]⟩

end Salp
